import Mathlib

/-!
Shallow embedding of the `google-service` repository (src/main.py, src/script.py):
credential resolution, private-key normalization, token-acquisition retry loop,
and per-URL submission, together with theorems settling the specification claims.

Python strings are modelled as Lean `String` (with `List Char` data where the
character-level scan of `str.replace` matters).  Python dicts holding parsed
service-account JSON are modelled as association lists `Cred`.  External
effects (base64 decoding, JSON parsing, the token endpoint, the indexing
endpoint, the file system) are modelled as explicit parameters/oracles, and
`script.py`'s file rewrite as explicit state passing.
-/

/-- Python substring test `pat in hay` (`str.__contains__`), on character lists:
scans left to right for an occurrence of `pat`. -/
def pyContains (hay pat : List Char) : Bool :=
  match hay with
  | [] => pat.isEmpty
  | _ :: rest => pat.isPrefixOf hay || pyContains rest pat

/-- Python `private_key.replace(two-char-backslash-n, newline)`: replace every
(left-to-right, non-overlapping) occurrence of the two-character escape
sequence backslash-`n` with a real newline character. -/
def replEsc : List Char → List Char
  | [] => []
  | [c] => [c]
  | a :: b :: rest =>
    if a = '\\' ∧ b = 'n' then '\n' :: replEsc rest
    else a :: replEsc (b :: rest)

/-- Python `two-char-backslash-n in private_key`. -/
def hasEsc (s : String) : Bool := pyContains s.data ['\\', 'n']

/-- Python `newline-char in private_key`. -/
def hasNl (s : String) : Bool := s.data.contains '\n'

/-- main.py `fix_private_key_format` (lines 51-59): return falsy (empty) keys
unchanged; when the key contains the literal backslash-n escape but no real
newline, replace every escape by a newline; otherwise return it unchanged. -/
def fix_private_key_format (pk : String) : String :=
  if pk = "" then pk
  else if hasEsc pk && !hasNl pk then ⟨replEsc pk.data⟩
  else pk

/-- script.py's key normalization (lines 27-30): replace the escapes whenever
the key contains the literal backslash-n escape, regardless of real newlines. -/
def scriptFixKey (pk : String) : String :=
  if hasEsc pk then ⟨replEsc pk.data⟩ else pk

theorem pyContains_nil (pat : List Char) : pyContains [] pat = pat.isEmpty := by
  simp [pyContains]

theorem pyContains_cons (c : Char) (rest pat : List Char) :
    pyContains (c :: rest) pat = (pat.isPrefixOf (c :: rest) || pyContains rest pat) := by
  simp [pyContains]

/-- The head of `replEsc (c :: l)` is either `c` itself or a newline produced
by a replacement. -/
theorem replEsc_cons_head (c : Char) (l : List Char) :
    ∃ t, replEsc (c :: l) = c :: t ∨ replEsc (c :: l) = '\n' :: t := by
  match l with
  | [] => exact ⟨[], Or.inl rfl⟩
  | b :: rest =>
    by_cases h : c = '\\' ∧ b = 'n'
    · exact ⟨replEsc rest, Or.inr (by simp [replEsc, h])⟩
    · exact ⟨replEsc (b :: rest), Or.inl (by simp [replEsc, h])⟩

/-- If the input contains the escape sequence, the replaced output contains a
real newline character. -/
theorem replEsc_mem_newline (l : List Char) (h : pyContains l ['\\', 'n'] = true) :
    '\n' ∈ replEsc l := by
  induction l using replEsc.induct with
  | case1 => simp [pyContains] at h
  | case2 c =>
    simp [pyContains, List.isPrefixOf] at h
  | case3 a b rest hab ih =>
    simp [replEsc, hab]
  | case4 a b rest hab ih =>
    simp only [replEsc, if_neg hab]
    rw [pyContains_cons] at h
    rcases Bool.or_eq_true_iff.mp h with hpre | htail
    · have hp := List.isPrefixOf_iff_prefix.mp hpre
      simp [List.cons_prefix_cons] at hp
      exact absurd ⟨hp.1.symm, hp.2.symm⟩ hab
    · exact List.mem_cons_of_mem a (ih htail)

/-- The replaced output contains no occurrence of the escape sequence: every
occurrence was consumed. -/
theorem replEsc_no_esc (l : List Char) : pyContains (replEsc l) ['\\', 'n'] = false := by
  induction l using replEsc.induct with
  | case1 => simp [replEsc, pyContains]
  | case2 c => simp [replEsc, pyContains, List.isPrefixOf]
  | case3 a b rest hab ih =>
    simp only [replEsc, if_pos hab]
    rw [pyContains_cons, ih]
    simp [List.isPrefixOf]
  | case4 a b rest hab ih =>
    simp only [replEsc, if_neg hab]
    rcases replEsc_cons_head b rest with ⟨t, ht | ht⟩
    · rw [ht] at ih ⊢
      rw [pyContains_cons, ih, Bool.or_false]
      simp only [List.isPrefixOf, Bool.and_true]
      simp only [Bool.and_eq_false_iff, beq_eq_false_iff_ne, ne_eq]
      rcases Decidable.em (a = '\\') with ha | ha
      · exact Or.inr fun hb => hab ⟨ha, hb.symm⟩
      · exact Or.inl fun hcontra => ha hcontra.symm
    · rw [ht] at ih ⊢
      rw [pyContains_cons, ih, Bool.or_false]
      simp [List.isPrefixOf]

/-- `fix_private_key_format` is idempotent. -/
theorem fix_idem (pk : String) :
    fix_private_key_format (fix_private_key_format pk) = fix_private_key_format pk := by
  by_cases h0 : pk = ""
  · rw [h0]; rfl
  · by_cases h1 : (hasEsc pk && !hasNl pk) = true
    · have hr : fix_private_key_format pk = ⟨replEsc pk.data⟩ := by
        rw [fix_private_key_format, if_neg h0, if_pos h1]
      have hesc : hasEsc pk = true := by
        have h1c := h1
        rw [Bool.and_eq_true] at h1c
        exact h1c.1
      have hmem : '\n' ∈ replEsc pk.data := replEsc_mem_newline _ hesc
      have hnl : hasNl ⟨replEsc pk.data⟩ = true := by
        simpa [hasNl, List.contains, List.elem_iff] using hmem
      have hne : (⟨replEsc pk.data⟩ : String) ≠ "" := by
        intro hcontra
        have hd : replEsc pk.data = [] := congrArg String.data hcontra
        rw [hd] at hmem
        exact absurd hmem (List.not_mem_nil _)
      rw [hr, fix_private_key_format, if_neg hne, if_neg (by simp [hnl])]
    · have hr : fix_private_key_format pk = pk := by
        rw [fix_private_key_format, if_neg h0, if_neg h1]
      rw [hr, fix_private_key_format, if_neg h0, if_neg h1]

/-! ## Service-account credential records

Parsed service-account JSON objects (Python dicts) are modelled as
association lists from field names to string values. -/

/-- A parsed service-account record: a Python dict from field names to
(string) values. -/
def Cred : Type := List (String × String)

instance : DecidableEq Cred := by
  unfold Cred
  infer_instance

/-- Python `field in data` (dict key membership). -/
def credHas (c : Cred) (k : String) : Bool :=
  c.any (fun p => p.1 == k)

/-- Python `data[key]` / `data.get(key)` (first binding wins, as dict keys are
unique). -/
def credGet : Cred → String → Option String
  | [], _ => none
  | (k, v) :: rest, key => if k == key then some v else credGet rest key

/-- Python `data[key] = v` for a key already present in the dict. -/
def credSet : Cred → String → String → Cred
  | [], _, _ => []
  | (k, v0) :: rest, key, v =>
    if k == key then (key, v) :: credSet rest key v
    else (k, v0) :: credSet rest key v

/-- main.py lines 67-68 / 77-78 / 88-89: `if private_key in data:
data[private_key] = fix_private_key_format(data[private_key])`. -/
def normalizeCred (d : Cred) : Cred :=
  if credHas d "private_key" then
    credSet d "private_key" (fix_private_key_format ((credGet d "private_key").getD ""))
  else d

theorem credGet_credSet (c : Cred) (key v : String) (h : credHas c key = true) :
    credGet (credSet c key v) key = some v := by
  induction c with
  | nil => simp [credHas] at h
  | cons p rest ih =>
    obtain ⟨k, v0⟩ := p
    by_cases hp : (k == key) = true
    · simp [credSet, credGet, hp]
    · have hr : credHas rest key = true := by
        simp only [credHas, List.any_cons] at h
        rcases Bool.or_eq_true_iff.mp h with hh | hh
        · exact absurd hh hp
        · exact hh
      simp only [credSet, if_neg hp, credGet, if_neg hp]
      exact ih hr

/-! ## Credential resolution (main.py `get_service_account_info`, lines 61-96)

Exceptions raised while loading credentials are modelled as values of
`CredError`; distinct Python failure messages/classes map to distinct
constructors.  base64 decoding and JSON parsing are external-library calls,
modelled as oracles in `Parsers`; environment variables and the file system
are snapshots in `Env`. -/

/-- Failures of credential loading and validation.  `notFound` is the
`FileNotFoundError("Service account credentials not found")` of line 93,
`loadFailed` any other exception wrapped by line 96, and `missingFields`
the `ValueError("Missing required fields: ...")` of line 113. -/
inductive CredError where
  | notFound
  | loadFailed (msg : String)
  | missingFields (fields : List String)
deriving DecidableEq

/-- External decoding libraries: `base64.b64decode(...).decode(utf-8)` and
`json.loads`, each either returning a value or raising (error message). -/
structure Parsers where
  b64decode : String → Except String String
  jsonParse : String → Except String Cred

/-- Snapshot of the ambient environment: the two environment variables and
the file-system contents visible to the resolver. -/
structure Env where
  googleServiceAccountBase64 : Option String
  serviceAccountFile : Option String
  fileContents : String → Option String

/-- main.py `get_service_account_info` (lines 61-96): inline credential first,
then the base64 environment blob, then the configured file (default
`service-account.json`), else the not-found failure; every sourced record
gets its `private_key` normalized. -/
def get_service_account_info (P : Parsers) (E : Env) (inline : Option Cred) :
    Except CredError Cred :=
  match inline with
  | some data => .ok (normalizeCred data)
  | none =>
    match E.googleServiceAccountBase64 with
    | some b64 =>
      match P.b64decode b64 with
      | .error e => .error (.loadFailed e)
      | .ok txt =>
        match P.jsonParse txt with
        | .error e => .error (.loadFailed e)
        | .ok data => .ok (normalizeCred data)
    | none =>
      match E.fileContents (E.serviceAccountFile.getD "service-account.json") with
      | some txt =>
        match P.jsonParse txt with
        | .error e => .error (.loadFailed e)
        | .ok data => .ok (normalizeCred data)
      | none => .error .notFound

/-- main.py line 109: the declared required fields. -/
def required_fields : List String :=
  ["type", "project_id", "private_key_id", "private_key", "client_email"]

/-- main.py line 110: the comprehension keeping, in declared order, the
required fields absent from the sourced record. -/
def missing_fields (c : Cred) : List String :=
  required_fields.filter (fun f => !(credHas c f))

/-- main.py lines 103-113: resolve the credential, then fail with the
missing-fields error when any required field is absent. -/
def resolveAndValidate (P : Parsers) (E : Env) (inline : Option Cred) :
    Except CredError Cred :=
  match get_service_account_info P E inline with
  | .error e => .error e
  | .ok c =>
    if missing_fields c = [] then .ok c
    else .error (.missingFields (missing_fields c))

/-! ## Token acquisition with retry (main.py lines 115-134) -/

/-- Python `"Invalid JWT Signature" in str(e)` (line 131). -/
def invalidJwtSig (e : String) : Bool :=
  pyContains e.data "Invalid JWT Signature".data

/-- main.py line 23. -/
def MAX_RETRIES : Nat := 3

/-- One iteration of the retry loop as the external world sees it: the local
credential construction (`from_service_account_info`, line 119) either raises
or succeeds, and the token exchange (`creds.refresh`, line 126) either raises
or yields a token. -/
structure Attempt where
  construct : Except String Unit
  refresh : Except String String

/-- The body of retry iteration `i` (lines 118-128): construction failure
raises before the `time.sleep(1)` of line 123; otherwise iterations after the
first sleep one second, then the refresh outcome decides.  Returns the raised
error or token, and the seconds slept. -/
def attemptRun (a : Attempt) (i : Nat) : Except String String × Nat :=
  match a.construct with
  | .error e => (.error e, 0)
  | .ok _ => (a.refresh, if 0 < i then 1 else 0)

/-- main.py lines 117-134: the `for attempt in range(MAX_RETRIES)` loop over
the remaining attempt indices.  A failing iteration retries (continues to the
next index) exactly when its error message contains `Invalid JWT Signature`
and it is not the last iteration (`attempt < MAX_RETRIES - 1`); otherwise the
error is re-raised.  The empty-list branch (loop falling through with no
token) is unreachable because the last iteration always breaks or raises.
Accumulates the seconds slept. -/
def tokenLoop (w : Nat → Attempt) : List Nat → Nat → Except String String × Nat
  | [], acc => (.error "loop fell through", acc)
  | i :: rest, acc =>
    let r := attemptRun (w i) i
    match r.1 with
    | .ok tok => (.ok tok, acc + r.2)
    | .error e =>
      if invalidJwtSig e = true ∧ i < MAX_RETRIES - 1 then
        tokenLoop w rest (acc + r.2)
      else (.error e, acc + r.2)

/-- main.py lines 116-134: run the retry loop over `range(MAX_RETRIES)`. -/
def acquireToken (w : Nat → Attempt) : Except String String × Nat :=
  tokenLoop w (List.range MAX_RETRIES) 0

/-! ## Per-URL submission (main.py lines 136-173) and the batch operation -/

/-- The external indexing endpoint's HTTP response (`requests.post` result). -/
structure HttpResp where
  status_code : Nat
  text : String
deriving DecidableEq

/-- One submission request: the `url` and `type` fields of `URLRequest`
(main.py lines 37-42) that per-item processing reads. -/
structure URLRequest where
  url : String
  type : String
deriving DecidableEq

/-- main.py `URLResponse` (lines 44-49), the per-item SubmissionResult. -/
structure URLResponse where
  success : Bool
  status_code : Nat
  message : String
  url : String
  type : String
deriving DecidableEq

/-- main.py lines 160-168: interpret exactly HTTP 200 as success, echo the
request's url and type; the message is the fixed confirmation string on
success and the raw response body otherwise. -/
def urlResponseOf (req : URLRequest) (response : HttpResp) : URLResponse :=
  { success := response.status_code == 200
    status_code := response.status_code
    message := if response.status_code == 200 then "URL submitted successfully"
               else response.text
    url := req.url
    type := req.type }

/-- Modelled from the spec: the repository's `POST /submit-urls` batch
endpoint is absent from src/ (src/main.py only has the single-URL
`POST /submit-url`), so the per-item isolation of spec sections 4.2 and 7 is
modelled here.  An item whose network call returns a response is mapped by
the in-source `urlResponseOf`; an item whose processing raises is converted
locally into a failed result with statusCode 500 whose message embeds the
error text (the wording of main.py line 173), never propagating. -/
def processItem (req : URLRequest) (outcome : Except String HttpResp) : URLResponse :=
  match outcome with
  | .ok response => urlResponseOf req response
  | .error e =>
    { success := false
      status_code := 500
      message := "Failed to submit URL: " ++ e
      url := req.url
      type := req.type }

/-- Modelled from the spec: the batch loop of the absent `POST /submit-urls`
endpoint, processing the items in order from position `i`, each item
consulting its own outcome in the external world `world`. -/
def submitItems (world : Nat → Except String HttpResp) : Nat → List URLRequest → List URLResponse
  | _, [] => []
  | i, req :: rest => processItem req (world i) :: submitItems world (i + 1) rest

/-- Modelled from the spec: the absent batch submit operation.  A single token
acquisition (the in-source retry loop) precedes iteration; its failure fails
the whole batch, and otherwise every item yields exactly one result. -/
def submitBatch (tw : Nat → Attempt) (world : Nat → Except String HttpResp)
    (reqs : List URLRequest) : Except String (List URLResponse) :=
  match (acquireToken tw).1 with
  | .error e => .error e
  | .ok _ => .ok (submitItems world 0 reqs)

theorem submitItems_length (world : Nat → Except String HttpResp) (i : Nat)
    (reqs : List URLRequest) : (submitItems world i reqs).length = reqs.length := by
  induction reqs generalizing i with
  | nil => rfl
  | cons r rest ih => simp [submitItems, ih]

theorem submitItems_get (world : Nat → Except String HttpResp) (i : Nat)
    (reqs : List URLRequest) (j : Nat) (hj : j < reqs.length)
    (hj2 : j < (submitItems world i reqs).length) :
    (submitItems world i reqs).get ⟨j, hj2⟩ = processItem (reqs.get ⟨j, hj⟩) (world (i + j)) := by
  induction reqs generalizing i j with
  | nil => exact absurd hj (Nat.not_lt_zero j)
  | cons r rest ih =>
    match j with
    | 0 => simp [submitItems]
    | k + 1 =>
      have hk : k < rest.length := Nat.lt_of_succ_lt_succ hj
      have hk2 : k < (submitItems world (i + 1) rest).length := by
        rw [submitItems_length]; exact hk
      have := ih (i + 1) k hk hk2
      simp only [submitItems, List.get_cons_succ]
      rw [this, Nat.add_assoc, Nat.add_comm 1 k]

/-! ## script.py: `validate_service_account_file` (lines 8-37) -/

/-- script.py line 20: its declared required fields. -/
def script_required_fields : List String :=
  ["type", "project_id", "private_key_id", "private_key", "client_email",
   "client_id", "auth_uri", "token_uri"]

/-- script.py line 21: the required fields absent from the parsed record, in
declared order. -/
def script_missing_fields (c : Cred) : List String :=
  script_required_fields.filter (fun f => !(credHas c f))

/-- The state of the service-account file passed to script.py's validator:
absent, present with unparseable JSON, or present and parsed to a record. -/
inductive FileState where
  | absent
  | invalid
  | parsed (data : Cred)
deriving DecidableEq

/-- script.py's failures: `FileNotFoundError` (line 11), the invalid-JSON
`ValueError` (line 17), the missing-fields `ValueError` (line 24). -/
inductive ScriptError where
  | fileNotFound
  | invalidJson
  | missingFields (fields : List String)
deriving DecidableEq

/-- script.py `validate_service_account_file` (lines 8-37) as a state
transformer on the file: returns the validated (possibly fixed) record or a
failure, together with the file's state after the call.  When the private key
contains the backslash-n escape, the fixed record is written back to the same
file (lines 28-35); otherwise the file is untouched. -/
def validate_service_account_file : FileState → Except ScriptError Cred × FileState
  | .absent => (.error .fileNotFound, .absent)
  | .invalid => (.error .invalidJson, .invalid)
  | .parsed data =>
    if script_missing_fields data = [] then
      let private_key := (credGet data "private_key").getD ""
      if hasEsc private_key then
        let fixed := credSet data "private_key" ⟨replEsc private_key.data⟩
        (.ok fixed, .parsed fixed)
      else (.ok data, .parsed data)
    else (.error (.missingFields (script_missing_fields data)), .parsed data)

/-! ## Further helper lemmas -/

theorem credGet_none_of_not_has (c : Cred) (k : String) (h : credHas c k = false) :
    credGet c k = none := by
  induction c with
  | nil => rfl
  | cons p rest ih =>
    obtain ⟨k0, v0⟩ := p
    simp only [credHas, List.any_cons, Bool.or_eq_false_iff] at h
    simp only [credGet, if_neg (by simp [h.1] : ¬(k0 == k) = true)]
    exact ih (by simpa [credHas] using h.2)

theorem credHas_of_credGet (c : Cred) (k v : String) (h : credGet c k = some v) :
    credHas c k = true := by
  induction c with
  | nil => simp [credGet] at h
  | cons p rest ih =>
    obtain ⟨k0, v0⟩ := p
    by_cases hk : (k0 == k) = true
    · simp [credHas, List.any_cons, hk]
    · simp only [credGet, if_neg hk] at h
      have hr := ih h
      simp only [credHas, List.any_cons]
      simp only [credHas] at hr
      rw [hr, Bool.or_true]

theorem hasEsc_ne_empty (pk : String) (h : hasEsc pk = true) : pk ≠ "" := by
  intro hc
  rw [hc] at h
  simp [hasEsc, pyContains] at h

/-- Every successful resolution returns a record of the shape
`normalizeCred d` for some sourced record `d`. -/
theorem get_service_account_info_ok (P : Parsers) (E : Env) (inline : Option Cred)
    (c : Cred) (h : get_service_account_info P E inline = .ok c) :
    ∃ d, c = normalizeCred d := by
  cases inline with
  | some d =>
    simp only [get_service_account_info, Except.ok.injEq] at h
    exact ⟨d, h.symm⟩
  | none =>
    simp only [get_service_account_info] at h
    cases hb : E.googleServiceAccountBase64 with
    | some b64 =>
      simp only [hb] at h
      cases hd : P.b64decode b64 with
      | error e => simp [hd] at h
      | ok txt =>
        simp only [hd] at h
        cases hj : P.jsonParse txt with
        | error e => simp [hj] at h
        | ok d =>
          simp only [hj, Except.ok.injEq] at h
          exact ⟨d, h.symm⟩
    | none =>
      simp only [hb] at h
      cases hf : E.fileContents (E.serviceAccountFile.getD "service-account.json") with
      | some txt =>
        simp only [hf] at h
        cases hj : P.jsonParse txt with
        | error e => simp [hj] at h
        | ok d =>
          simp only [hj, Except.ok.injEq] at h
          exact ⟨d, h.symm⟩
      | none => simp [hf] at h

/-- The retry loop consults only the attempt indices in its list. -/
theorem tokenLoop_congr (w w' : Nat → Attempt) (l : List Nat) (acc : Nat)
    (h : ∀ i ∈ l, w i = w' i) : tokenLoop w l acc = tokenLoop w' l acc := by
  induction l generalizing acc with
  | nil => rfl
  | cons i rest ih =>
    have hi : w i = w' i := h i (List.mem_cons_self i rest)
    simp only [tokenLoop, hi]
    cases hr : (attemptRun (w' i) i).1 with
    | ok tok => rfl
    | error e =>
      by_cases hcond : invalidJwtSig e = true ∧ i < MAX_RETRIES - 1
      · simp only [hr, if_pos hcond]
        exact ih _ (fun j hj => h j (List.mem_cons_of_mem i hj))
      · simp only [hr, if_neg hcond]

/-! ## Claims -/

/-- Claim C7: for every private-key string containing the two-character
backslash-n escape sequence but no real newline character, normalization
performs the full `replace` scan (so the result is the escape-free string
with a real line break at every former occurrence), and normalization is
idempotent on every string. -/
theorem claim_C7 :
    (∀ pk : String, hasEsc pk = true → hasNl pk = false →
      fix_private_key_format pk = ⟨replEsc pk.data⟩ ∧
      hasEsc (fix_private_key_format pk) = false ∧
      hasNl (fix_private_key_format pk) = true) ∧
    (∀ s : String,
      fix_private_key_format (fix_private_key_format s) = fix_private_key_format s) := by
  constructor
  · intro pk hesc hnl
    have h0 : pk ≠ "" := hasEsc_ne_empty pk hesc
    have hfix : fix_private_key_format pk = ⟨replEsc pk.data⟩ := by
      rw [fix_private_key_format, if_neg h0, if_pos (by rw [hesc, hnl]; rfl)]
    refine ⟨hfix, ?_, ?_⟩
    · rw [hfix]
      exact replEsc_no_esc pk.data
    · rw [hfix]
      simpa [hasNl, List.contains, List.elem_iff] using replEsc_mem_newline pk.data hesc
  · exact fix_idem

/-- Witness for C7 at the concrete key `abc\\ndef` (escape, no real newline)
and idempotence at `xy\\nz` followed by a real newline and `w`. -/
theorem claim_C7_witness :
    fix_private_key_format "abc\\ndef" = ⟨replEsc "abc\\ndef".data⟩ ∧
    hasEsc (fix_private_key_format "abc\\ndef") = false ∧
    hasNl (fix_private_key_format "abc\\ndef") = true ∧
    fix_private_key_format (fix_private_key_format "xy\\nz\nw") =
      fix_private_key_format "xy\\nz\nw" := by
  have h := claim_C7.1 "abc\\ndef" (by decide) (by decide)
  exact ⟨h.1, h.2.1, h.2.2, claim_C7.2 "xy\\nz\nw"⟩

/-- The key used to exhibit the difference between the two normalizers: it
contains both a real newline and a literal escape sequence. -/
def mixedKey : String := "a\nb\\nc"

/-- Claim C9: main.py's normalizer returns any key containing a real newline
unchanged (even when escapes remain) and returns the empty string unchanged,
while script.py's normalizer replaces the escapes whenever they are present;
on `mixedKey` the two visibly differ. -/
theorem claim_C9 :
    (∀ pk : String, hasNl pk = true → fix_private_key_format pk = pk) ∧
    fix_private_key_format "" = "" ∧
    (∀ pk : String, hasEsc pk = true → scriptFixKey pk = ⟨replEsc pk.data⟩) ∧
    fix_private_key_format mixedKey = mixedKey ∧
    scriptFixKey mixedKey ≠ mixedKey := by
  refine ⟨?_, rfl, ?_, ?_, ?_⟩
  · intro pk hnl
    by_cases h0 : pk = ""
    · rw [fix_private_key_format, if_pos h0]
    · rw [fix_private_key_format, if_neg h0, if_neg (by rw [hnl]; simp)]
  · intro pk hesc
    rw [scriptFixKey, if_pos hesc]
  · decide
  · decide

/-- Witness for C9 at the concrete mixed key (real newline plus escape) and
at a key made only of escapes. -/
theorem claim_C9_witness :
    fix_private_key_format "a\nb\\nc" = "a\nb\\nc" ∧
    scriptFixKey "q\\nr" = ⟨replEsc "q\\nr".data⟩ := by
  exact ⟨claim_C9.1 "a\nb\\nc" (by decide), claim_C9.2.2.1 "q\\nr" (by decide)⟩

/-- Claim C5: a per-URL submission reaching the external call succeeds
exactly when the response status is 200; on 200 the message is the fixed
confirmation string, on non-200 it is the raw response body with the result
unsuccessful (returned as a value, not thrown); the result echoes the
request's url and type and the response's status code. -/
theorem claim_C5 (req : URLRequest) (response : HttpResp) :
    ((urlResponseOf req response).success = true ↔ response.status_code = 200) ∧
    (response.status_code = 200 →
      (urlResponseOf req response).message = "URL submitted successfully") ∧
    (response.status_code ≠ 200 →
      (urlResponseOf req response).message = response.text ∧
      (urlResponseOf req response).success = false) ∧
    (urlResponseOf req response).status_code = response.status_code ∧
    processItem req (.ok response) = urlResponseOf req response ∧
    (urlResponseOf req response).url = req.url ∧
    (urlResponseOf req response).type = req.type := by
  refine ⟨?_, ?_, ?_, rfl, rfl, rfl, rfl⟩
  · simp [urlResponseOf]
  · intro h200
    simp [urlResponseOf, h200]
  · intro hne
    simp [urlResponseOf, hne]

/-- Witness for C5: a 200 response and a 404 response at a concrete request. -/
theorem claim_C5_witness :
    (urlResponseOf ⟨"https://example.com/page", "URL_UPDATED"⟩ ⟨200, "ok-body"⟩).success = true ∧
    (urlResponseOf ⟨"https://example.com/page", "URL_UPDATED"⟩ ⟨200, "ok-body"⟩).message =
      "URL submitted successfully" ∧
    (urlResponseOf ⟨"https://example.com/page", "URL_UPDATED"⟩ ⟨404, "not found"⟩).message =
      "not found" ∧
    (urlResponseOf ⟨"https://example.com/page", "URL_UPDATED"⟩ ⟨404, "not found"⟩).success = false := by
  have h200 := claim_C5 ⟨"https://example.com/page", "URL_UPDATED"⟩ ⟨200, "ok-body"⟩
  have h404 := claim_C5 ⟨"https://example.com/page", "URL_UPDATED"⟩ ⟨404, "not found"⟩
  exact ⟨h200.1.mpr rfl, h200.2.1 rfl, (h404.2.2.1 (by decide)).1, (h404.2.2.1 (by decide)).2⟩

/-- Claim C4: credential resolution tries, in priority order, the inline
credential (normalized, without consulting other sources), then the set
base64 environment blob (decoded, parsed, normalized), then the existing
file at the configured path (parsed, normalized), and otherwise fails with
the credentials-not-found error. -/
theorem claim_C4 (P : Parsers) (E : Env) (inline : Option Cred) :
    (∀ d, inline = some d →
      get_service_account_info P E inline = .ok (normalizeCred d)) ∧
    (∀ b64 txt d, inline = none →
      E.googleServiceAccountBase64 = some b64 →
      P.b64decode b64 = .ok txt → P.jsonParse txt = .ok d →
      get_service_account_info P E inline = .ok (normalizeCred d)) ∧
    (∀ txt d, inline = none →
      E.googleServiceAccountBase64 = none →
      E.fileContents (E.serviceAccountFile.getD "service-account.json") = some txt →
      P.jsonParse txt = .ok d →
      get_service_account_info P E inline = .ok (normalizeCred d)) ∧
    (inline = none →
      E.googleServiceAccountBase64 = none →
      E.fileContents (E.serviceAccountFile.getD "service-account.json") = none →
      get_service_account_info P E inline = .error .notFound) := by
  refine ⟨?_, ?_, ?_, ?_⟩
  · intro d hinl
    subst hinl
    rfl
  · intro b64 txt d hinl hb hd hj
    subst hinl
    simp [get_service_account_info, hb, hd, hj]
  · intro txt d hinl hb hf hj
    subst hinl
    simp [get_service_account_info, hb, hf, hj]
  · intro hinl hb hf
    subst hinl
    simp [get_service_account_info, hb, hf]

/-- Parsers whose external decoders are never consulted in the witnesses. -/
def stubParsers : Parsers := ⟨fun _ => .error "unused", fun _ => .error "unused"⟩

/-- An environment with no variable set and an empty file system. -/
def emptyEnv : Env := ⟨none, none, fun _ => none⟩

/-- A complete inline credential whose private key carries escapes only. -/
def credGood : Cred :=
  [("type", "service_account"), ("project_id", "p"), ("private_key_id", "kid"),
   ("private_key", "abc\\ndef"), ("client_email", "sa@p.example"),
   ("client_id", "cid"), ("auth_uri", "a"), ("token_uri", "t")]

/-- Witness for C4: the inline source wins, and with no source at all the
resolution fails with the not-found error. -/
theorem claim_C4_witness :
    get_service_account_info stubParsers emptyEnv (some credGood) =
      .ok (normalizeCred credGood) ∧
    get_service_account_info stubParsers emptyEnv none = .error .notFound := by
  have h := claim_C4 stubParsers emptyEnv (some credGood)
  have h2 := claim_C4 stubParsers emptyEnv none
  exact ⟨h.1 credGood rfl, h2.2.2.2 rfl rfl rfl⟩

/-- A record carrying exactly the five fields that main.py requires. -/
def credFive : Cred :=
  [("type", "service_account"), ("project_id", "p"), ("private_key_id", "kid"),
   ("private_key", "k"), ("client_email", "sa@p.example")]

/-- Counterexample to C6 as stated: validation does not check "exactly" the
five claimed fields everywhere — script.py's validator (cited by the claim)
rejects a record that has all five, demanding client_id, auth_uri and
token_uri as well. -/
theorem claim_C6_cex :
    missing_fields credFive = [] ∧
    script_missing_fields credFive = ["client_id", "auth_uri", "token_uri"] ∧
    (validate_service_account_file (.parsed credFive)).1 =
      .error (.missingFields ["client_id", "auth_uri", "token_uri"]) := by
  exact ⟨by decide, by decide, rfl⟩

/-- Claim C6 (amended): main.py's validation checks exactly the five declared
required fields and script.py's checks its eight; in each, the error names
exactly the absent fields of its own declared list, in declared order
(a sublist of the declaration), and the missing-fields failure is distinct
from the not-found failure; a credential missing only `client_email` fails
with an error naming exactly `client_email`. -/
theorem claim_C6_amended (c : Cred) :
    (missing_fields c = [] ↔ ∀ f ∈ required_fields, credHas c f = true) ∧
    (∀ f, f ∈ missing_fields c ↔ f ∈ required_fields ∧ credHas c f = false) ∧
    List.Sublist (missing_fields c) required_fields ∧
    (∀ f, f ∈ script_missing_fields c ↔ f ∈ script_required_fields ∧ credHas c f = false) ∧
    List.Sublist (script_missing_fields c) script_required_fields ∧
    (∀ fs, CredError.missingFields fs ≠ CredError.notFound) ∧
    (∀ fs, ScriptError.missingFields fs ≠ ScriptError.fileNotFound) ∧
    (credHas c "client_email" = false →
      (∀ f, f ∈ required_fields → f ≠ "client_email" → credHas c f = true) →
      missing_fields c = ["client_email"]) := by
  refine ⟨?_, ?_, List.filter_sublist _, ?_, List.filter_sublist _, ?_, ?_, ?_⟩
  · simp [missing_fields, List.filter_eq_nil_iff]
  · intro f
    simp [missing_fields, List.mem_filter]
  · intro f
    simp [script_missing_fields, List.mem_filter]
  · intro fs h
    exact absurd (congrArg (fun x => match x with
      | CredError.missingFields _ => true | _ => false) h) (by simp)
  · intro fs h
    exact absurd (congrArg (fun x => match x with
      | ScriptError.missingFields _ => true | _ => false) h) (by simp)
  · intro hemail hothers
    have ht : credHas c "type" = true := hothers "type" (by decide) (by decide)
    have hp : credHas c "project_id" = true := hothers "project_id" (by decide) (by decide)
    have hk : credHas c "private_key_id" = true := hothers "private_key_id" (by decide) (by decide)
    have hpk : credHas c "private_key" = true := hothers "private_key" (by decide) (by decide)
    simp [missing_fields, required_fields, List.filter, ht, hp, hk, hpk, hemail]

/-- A record with every main.py-required field except `client_email`. -/
def credNoEmail : Cred :=
  [("type", "service_account"), ("project_id", "p"), ("private_key_id", "kid"),
   ("private_key", "k")]

/-- Witness for the amended C6: the record missing only `client_email` fails
naming exactly `client_email`, and the two failure kinds are distinct. -/
theorem claim_C6_amended_witness :
    missing_fields credNoEmail = ["client_email"] ∧
    CredError.missingFields ["client_email"] ≠ CredError.notFound := by
  have h := claim_C6_amended credNoEmail
  exact ⟨h.2.2.2.2.2.2.2 (by decide) (by decide), h.2.2.2.2.2.1 ["client_email"]⟩

/-- Claim C10: script.py's validation has a file-system side effect — when
the private key read from the file contains a backslash-n escape, the same
file is overwritten with the re-serialized record carrying the replaced key
(a record genuinely different from the one read); when the key contains no
escape, the file is left unchanged. -/
theorem claim_C10 (data : Cred) (pk : String)
    (h : script_missing_fields data = [])
    (hpk : credGet data "private_key" = some pk) :
    (hasEsc pk = true →
      (validate_service_account_file (FileState.parsed data)).2 =
        FileState.parsed (credSet data "private_key" ⟨replEsc pk.data⟩) ∧
      FileState.parsed (credSet data "private_key" ⟨replEsc pk.data⟩) ≠
        FileState.parsed data) ∧
    (hasEsc pk = false →
      (validate_service_account_file (FileState.parsed data)).2 =
        FileState.parsed data) := by
  have hgd : (credGet data "private_key").getD "" = pk := by rw [hpk]; rfl
  constructor
  · intro hesc
    constructor
    · simp [validate_service_account_file, h, hgd, hesc]
    · intro heq
      have hc : credSet data "private_key" ⟨replEsc pk.data⟩ = data := by
        injection heq
      have hhas : credHas data "private_key" = true := credHas_of_credGet _ _ _ hpk
      have hg := credGet_credSet data "private_key" ⟨replEsc pk.data⟩ hhas
      rw [hc, hpk] at hg
      have hpkeq : pk = ⟨replEsc pk.data⟩ := by injection hg
      have hfalse : hasEsc pk = false := by
        conv_lhs => rw [hpkeq]
        exact replEsc_no_esc pk.data
      rw [hfalse] at hesc
      exact absurd hesc (by decide)
  · intro hesc
    simp [validate_service_account_file, h, hgd, hesc]

/-- An eight-field record whose private key has no escape sequence. -/
def credPlain : Cred :=
  [("type", "service_account"), ("project_id", "p"), ("private_key_id", "kid"),
   ("private_key", "plain-key"), ("client_email", "sa@p.example"),
   ("client_id", "cid"), ("auth_uri", "a"), ("token_uri", "t")]

/-- Witness for C10: with `credGood` (escaped key) the file is rewritten with
the replaced key; with `credPlain` (no escape) it is untouched. -/
theorem claim_C10_witness :
    (validate_service_account_file (FileState.parsed credGood)).2 =
      FileState.parsed (credSet credGood "private_key" ⟨replEsc "abc\\ndef".data⟩) ∧
    (validate_service_account_file (FileState.parsed credPlain)).2 =
      FileState.parsed credPlain := by
  have h1 := claim_C10 credGood "abc\\ndef" (by decide) rfl
  have h2 := claim_C10 credPlain "plain-key" (by decide) rfl
  exact ⟨(h1.1 (by decide)).1, h2.2 (by decide)⟩

/-- A record accepted by main.py's validation whose `client_email` is the
empty string and whose private key contains a real newline alongside a
literal escape sequence that survives normalization. -/
def credBad : Cred :=
  [("type", "service_account"), ("project_id", "p"), ("private_key_id", "kid"),
   ("private_key", "line1\nline2\\nline3"), ("client_email", ""),
   ("client_id", "cid"), ("auth_uri", "a"), ("token_uri", "t")]

/-- Counterexample to C8 as stated: `credBad` passes resolution and
validation unchanged, yet its `client_email` is the empty string (fields are
only checked for presence, not non-emptiness) and its private key still
contains a literal backslash-n escape (the normalizer skips keys that already
contain a real newline). -/
theorem claim_C8_cex :
    resolveAndValidate stubParsers emptyEnv (some credBad) = .ok credBad ∧
    credGet credBad "client_email" = some "" ∧
    hasEsc ((credGet credBad "private_key").getD "") = true ∧
    hasNl ((credGet credBad "private_key").getD "") = true := by
  exact ⟨rfl, rfl, by decide, by decide⟩

/-- Claim C8 (amended): every credential accepted by resolution and
validation has all five required fields present (as keys), and its private
key is a fixed point of the normalizer — normalization has already been
applied, so re-normalizing changes nothing.  (Non-emptiness of field values
is not checked, and keys containing a real newline keep any remaining
escapes; see the counterexample.) -/
theorem claim_C8_amended (P : Parsers) (E : Env) (inline : Option Cred) (c : Cred)
    (h : resolveAndValidate P E inline = .ok c) :
    (∀ f ∈ required_fields, credHas c f = true) ∧
    (∀ pk, credGet c "private_key" = some pk → fix_private_key_format pk = pk) := by
  cases hg : get_service_account_info P E inline with
  | error e =>
    simp only [resolveAndValidate, hg] at h
    simp at h
  | ok c0 =>
    simp only [resolveAndValidate, hg] at h
    by_cases hm : missing_fields c0 = []
    · rw [if_pos hm] at h
      have hc : c0 = c := by injection h
      subst hc
      constructor
      · intro f hf
        simp only [missing_fields, List.filter_eq_nil_iff] at hm
        have := hm f hf
        simpa using this
      · intro pk hpk
        rcases get_service_account_info_ok P E inline c0 hg with ⟨d, hd⟩
        rcases Bool.eq_false_or_eq_true (credHas d "private_key") with hhas | hhas
        swap
        · have hnone : credGet c0 "private_key" = none := by
            rw [hd, normalizeCred, if_neg (by simp [hhas])]
            exact credGet_none_of_not_has d _ hhas
          rw [hnone] at hpk
          exact absurd hpk (by simp)
        · have hnorm : c0 = credSet d "private_key"
              (fix_private_key_format ((credGet d "private_key").getD "")) := by
            rw [hd, normalizeCred, if_pos hhas]
          have hget := credGet_credSet d "private_key"
              (fix_private_key_format ((credGet d "private_key").getD "")) hhas
          rw [← hnorm, hpk] at hget
          have hpkeq : pk = fix_private_key_format ((credGet d "private_key").getD "") := by
            injection hget with hg2
          rw [hpkeq]
          exact fix_idem _
    · rw [if_neg hm] at h
      simp at h

/-- Witness for the amended C8: the resolved form of `credGood` has
`client_email` present and its private key (now with real newlines) is left
unchanged by a second normalization. -/
theorem claim_C8_amended_witness :
    credHas (normalizeCred credGood) "client_email" = true ∧
    fix_private_key_format "abc\ndef" = "abc\ndef" := by
  have h := claim_C8_amended stubParsers emptyEnv (some credGood) (normalizeCred credGood) rfl
  exact ⟨h.1 "client_email" (by decide), h.2 "abc\ndef" rfl⟩

/-- Claim C1: a batch submit call that returns (token acquisition succeeded)
returns exactly one SubmissionResult per input request, order-preserving:
the result list has the input's length and the result at each position is the
processing of the request at that position. -/
theorem claim_C1 (tw : Nat → Attempt) (world : Nat → Except String HttpResp)
    (reqs : List URLRequest) (res : List URLResponse)
    (h : submitBatch tw world reqs = .ok res) :
    res.length = reqs.length ∧
    ∀ (i : Nat) (hi : i < reqs.length) (hi2 : i < res.length),
      res.get ⟨i, hi2⟩ = processItem (reqs.get ⟨i, hi⟩) (world i) := by
  have hres : res = submitItems world 0 reqs := by
    cases hacq : (acquireToken tw).1 with
    | error e =>
      simp only [submitBatch, hacq] at h
      simp at h
    | ok tok =>
      simp only [submitBatch, hacq, Except.ok.injEq] at h
      exact h.symm
  subst hres
  refine ⟨submitItems_length world 0 reqs, ?_⟩
  intro i hi hi2
  have := submitItems_get world 0 reqs i hi hi2
  simpa using this

/-- A token world in which every attempt succeeds immediately. -/
def twOk : Nat → Attempt := fun _ => ⟨.ok (), .ok "tok"⟩

/-- An indexing endpoint answering 200 to every call. -/
def worldOk : Nat → Except String HttpResp := fun _ => .ok ⟨200, "done"⟩

/-- A concrete two-request batch. -/
def reqsTwo : List URLRequest :=
  [⟨"https://example.com/a", "URL_UPDATED"⟩, ⟨"https://example.com/b", "URL_DELETED"⟩]

/-- Witness for C1 on the concrete two-request batch. -/
theorem claim_C1_witness :
    (submitItems worldOk 0 reqsTwo).length = reqsTwo.length ∧
    (submitItems worldOk 0 reqsTwo).get ⟨1, by decide⟩ =
      processItem (reqsTwo.get ⟨1, by decide⟩) (worldOk 1) := by
  have h := claim_C1 twOk worldOk reqsTwo (submitItems worldOk 0 reqsTwo) rfl
  exact ⟨h.1, h.2 1 (by decide) (by decide)⟩

/-- Claim C2: in a batch whose token acquisition succeeded, an item whose
processing raises yields (at its own position) a SubmissionResult with
success false, statusCode 500 and a message embedding the error text, while
the batch still returns one result for every input — the exception never
propagates out of the batch call. -/
theorem claim_C2 (tw : Nat → Attempt) (world : Nat → Except String HttpResp)
    (reqs : List URLRequest) (res : List URLResponse) (i : Nat) (e : String)
    (h : submitBatch tw world reqs = .ok res)
    (hi : i < reqs.length) (he : world i = .error e) :
    res.length = reqs.length ∧
    ∀ hi2 : i < res.length,
      res.get ⟨i, hi2⟩ =
        { success := false, status_code := 500,
          message := "Failed to submit URL: " ++ e,
          url := (reqs.get ⟨i, hi⟩).url, type := (reqs.get ⟨i, hi⟩).type } := by
  have hres : res = submitItems world 0 reqs := by
    cases hacq : (acquireToken tw).1 with
    | error e2 =>
      simp only [submitBatch, hacq] at h
      simp at h
    | ok tok =>
      simp only [submitBatch, hacq, Except.ok.injEq] at h
      exact h.symm
  subst hres
  refine ⟨submitItems_length world 0 reqs, ?_⟩
  intro hi2
  have hget := submitItems_get world 0 reqs i hi hi2
  rw [hget]
  simp [processItem, he]

/-- An indexing world whose first call raises and whose later calls
return 200. -/
def worldFail : Nat → Except String HttpResp :=
  fun i => if i = 0 then .error "connection reset" else .ok ⟨200, "done"⟩

/-- Witness for C2: the first item of the concrete batch fails locally and
becomes a 500 result while the batch keeps its length. -/
theorem claim_C2_witness :
    (submitItems worldFail 0 reqsTwo).length = reqsTwo.length ∧
    (submitItems worldFail 0 reqsTwo).get ⟨0, by decide⟩ =
      { success := false, status_code := 500,
        message := "Failed to submit URL: " ++ "connection reset",
        url := (reqsTwo.get ⟨0, by decide⟩).url,
        type := (reqsTwo.get ⟨0, by decide⟩).type } := by
  have h := claim_C2 twOk worldFail reqsTwo (submitItems worldFail 0 reqsTwo) 0
    "connection reset" rfl (by decide) rfl
  exact ⟨h.1, h.2 (by decide)⟩

/-- Claim C3: the token exchange retries only on invalid-signature-class
errors (message containing `Invalid JWT Signature`), consults at most
`MAX_RETRIES = 3` attempts, sleeps 1 second before each retry (so one retry
sleeps 1 second in total, two retries 2 seconds), aborts immediately with no
further attempt on a failure of any other class at any attempt, and when all
3 attempts fail with invalid-signature errors it surfaces the last error. -/
theorem claim_C3 (w : Nat → Attempt) :
    (∀ e, (attemptRun (w 0) 0).1 = .error e → invalidJwtSig e = false →
      acquireToken w = (.error e, 0)) ∧
    (∀ w' : Nat → Attempt, (∀ i, i < MAX_RETRIES → w i = w' i) →
      acquireToken w = acquireToken w') ∧
    (∀ e0 tok, w 0 = ⟨.ok (), .error e0⟩ → invalidJwtSig e0 = true →
      w 1 = ⟨.ok (), .ok tok⟩ →
      acquireToken w = (.ok tok, 1)) ∧
    (∀ e0 e1, w 0 = ⟨.ok (), .error e0⟩ → invalidJwtSig e0 = true →
      w 1 = ⟨.ok (), .error e1⟩ → invalidJwtSig e1 = false →
      acquireToken w = (.error e1, 1)) ∧
    (∀ e0 e1 tok, w 0 = ⟨.ok (), .error e0⟩ → invalidJwtSig e0 = true →
      w 1 = ⟨.ok (), .error e1⟩ → invalidJwtSig e1 = true →
      w 2 = ⟨.ok (), .ok tok⟩ →
      acquireToken w = (.ok tok, 2)) ∧
    (∀ e0 e1 e2, w 0 = ⟨.ok (), .error e0⟩ → invalidJwtSig e0 = true →
      w 1 = ⟨.ok (), .error e1⟩ → invalidJwtSig e1 = true →
      w 2 = ⟨.ok (), .error e2⟩ → invalidJwtSig e2 = true →
      acquireToken w = (.error e2, 2)) := by
  have hrange : List.range MAX_RETRIES = [0, 1, 2] := rfl
  refine ⟨?_, ?_, ?_, ?_, ?_, ?_⟩
  · intro e he hjwt
    have hsleep : (attemptRun (w 0) 0).2 = 0 := by
      unfold attemptRun
      cases (w 0).construct <;> simp
    simp only [acquireToken, hrange, tokenLoop, he, hjwt]
    simp [hsleep]
  · intro w' hw
    simp only [acquireToken]
    exact tokenLoop_congr w w' _ 0 (fun i hi => hw i (List.mem_range.mp hi))
  · intro e0 tok hw0 h0 hw1
    simp only [acquireToken, hrange, tokenLoop, attemptRun, hw0, hw1, h0, MAX_RETRIES]
    norm_num
  · intro e0 e1 hw0 h0 hw1 h1
    simp only [acquireToken, hrange, tokenLoop, attemptRun, hw0, hw1, h0, h1, MAX_RETRIES]
    norm_num
  · intro e0 e1 tok hw0 h0 hw1 h1 hw2
    simp only [acquireToken, hrange, tokenLoop, attemptRun, hw0, hw1, hw2, h0, h1, MAX_RETRIES]
    norm_num
  · intro e0 e1 e2 hw0 h0 hw1 h1 hw2 h2
    simp only [acquireToken, hrange, tokenLoop, attemptRun, hw0, hw1, hw2, h0, h1, h2, MAX_RETRIES]
    norm_num

/-- A token world failing once with an invalid-signature error and then
succeeding. -/
def twRetry : Nat → Attempt :=
  fun i =>
    if i = 0 then ⟨.ok (), .error "invalid_grant: Invalid JWT Signature."⟩
    else ⟨.ok (), .ok "tok"⟩

/-- Witness for C3: one transient invalid-signature failure is absorbed by
the retry (one second slept), and the exchange succeeds overall. -/
theorem claim_C3_witness : acquireToken twRetry = (.ok "tok", 1) := by
  exact (claim_C3 twRetry).2.2.1 "invalid_grant: Invalid JWT Signature." "tok"
    rfl (by decide) rfl
